import Mathlib

/-!
Shallow embedding of the route registration core of
`packages/driver/src/cy/net-stubbing/register-commands.ts`:
matcher shorthand resolution, matcher validation, matcher annotation,
handler classification, static-response normalization and the
registration state (unique-id counter, route table, emitted frames).
-/

set_option maxHeartbeats 1000000

namespace NetStubbing

/-- A JavaScript value as it can appear in a route matcher field or in a
static-response mapping.  A pattern object (RegExp) is represented by its
string form. -/
inductive JsVal where
  | vStr (s : String)
  | vRegex (source : String)
  | vNum (n : Int)
  | vBool (b : Bool)
  | vNull
  | vList (xs : List JsVal)
  | vObj (fields : List (String × JsVal))
  deriving Repr

/-- JavaScript truthiness of a value: empty strings, 0, false and null are
falsy; RegExp objects, arrays and plain objects are always truthy. -/
def truthy : JsVal → Bool
  | .vStr s => s ≠ ""
  | .vRegex _ => true
  | .vNum n => n ≠ 0
  | .vBool b => b
  | .vNull => false
  | .vList _ => true
  | .vObj _ => true

/-- Decimal digits of a natural number, as the characters JavaScript
`Number.prototype.toString` would produce. -/
def natDigits (n : Nat) : List Char :=
  if h : n < 10 then [Char.ofNat (48 + n)]
  else natDigits (n / 10) ++ [Char.ofNat (48 + n % 10)]
  decreasing_by exact Nat.div_lt_self (by omega) (by omega)

def natToString (n : Nat) : String := ⟨natDigits n⟩

def intToString (i : Int) : String :=
  if i < 0 then "-" ++ natToString i.natAbs else natToString i.toNat

/-- The string conversion JavaScript applies in `value.toString()`.
For a pattern object this is its source string form. -/
def jsToString : JsVal → String
  | .vStr s => s
  | .vRegex r => r
  | .vNum n => intToString n
  | .vBool b => if b then "true" else "false"
  | .vNull => "null"
  | .vList _ => ""
  | .vObj _ => "[object Object]"

def jsonEscapeChar (c : Char) : String :=
  if c = '"' then "\\\""
  else if c = '\\' then "\\\\"
  else if c = '\n' then "\\n"
  else if c = '\r' then "\\r"
  else if c = '\t' then "\\t"
  else String.singleton c

def jsonEscape (s : String) : String :=
  String.join (s.data.map jsonEscapeChar)

mutual

/-- `JSON.stringify` of a value (RegExp values serialize as empty objects). -/
def jsonStringifyVal : JsVal → String
  | .vStr s => "\"" ++ jsonEscape s ++ "\""
  | .vRegex _ => "\x7b\x7d"
  | .vNum n => intToString n
  | .vBool b => if b then "true" else "false"
  | .vNull => "null"
  | .vList xs => "[" ++ jsonStringifyList xs ++ "]"
  | .vObj fs => "\x7b" ++ jsonStringifyFields fs ++ "\x7d"

def jsonStringifyList : List JsVal → String
  | [] => ""
  | [x] => jsonStringifyVal x
  | x :: y :: xs => jsonStringifyVal x ++ "," ++ jsonStringifyList (y :: xs)

def jsonStringifyFields : List (String × JsVal) → String
  | [] => ""
  | [kv] => "\"" ++ jsonEscape kv.1 ++ "\":" ++ jsonStringifyVal kv.2
  | kv :: kv2 :: fs =>
      "\"" ++ jsonEscape kv.1 ++ "\":" ++ jsonStringifyVal kv.2 ++ ","
        ++ jsonStringifyFields (kv2 :: fs)

end

/-- `RouteMatcherOptions`: the user-facing matcher.  `method` and `url` hold a
string or pattern (or, before validation, any value); `headers` and `query`
hold mappings from field name to value; `https`, `port` and `webSocket` are
passed through unannotated. -/
structure RouteMatcherOptions where
  method : Option JsVal := none
  url : Option JsVal := none
  headers : Option (List (String × JsVal)) := none
  query : Option (List (String × JsVal)) := none
  https : Option JsVal := none
  port : Option JsVal := none
  webSocket : Option JsVal := none
  deriving Repr

def emptyMatcher : RouteMatcherOptions := {}

/-- `_.isEmpty(routeMatcher)`: a plain object is empty when it has no keys. -/
def isEmptyOptions (m : RouteMatcherOptions) : Bool :=
  m.method.isNone && m.url.isNone && m.headers.isNone && m.query.isNone
    && m.https.isNone && m.port.isNone && m.webSocket.isNone

/-- A path into the string/pattern-capable fields of a matcher: one of the
fixed STRING_MATCHER_FIELDS, or a nested entry of one of the
DICT_STRING_MATCHER_FIELDS (`headers`, `query`). -/
inductive StrField where
  | method
  | url
  | headerEntry (k : String)
  | queryEntry (k : String)
  deriving Repr, DecidableEq

/-- The nested field paths contributed by the `headers` dict: one per key
the user supplied, collected only when the dict value is truthy, which for a
present object is always. -/
def headerBlock (o : Option (List (String × JsVal))) : List StrField :=
  match o with
  | some hs => hs.map (fun kv : String × JsVal => StrField.headerEntry kv.1)
  | none => []

/-- The nested field paths contributed by the `query` dict. -/
def queryBlock (o : Option (List (String × JsVal))) : List StrField :=
  match o with
  | some qs => qs.map (fun kv : String × JsVal => StrField.queryEntry kv.1)
  | none => []

/-- Modelled from the spec where needed: `STRING_MATCHER_FIELDS` and
`DICT_STRING_MATCHER_FIELDS` are imported from
`@packages/net-stubbing/lib/types`, which is not among the given sources; per
the spec data model, `method` and `url` are the string/pattern-capable
top-level fields and `headers`/`query` the dict-valued ones. -/
def getAllStringMatcherFields (options : RouteMatcherOptions) : List StrField :=
  [.method, .url] ++ headerBlock options.headers ++ queryBlock options.query

/-- Lodash splits a string path on the dot separator; leading, trailing and
doubled dots yield empty segments, as in `stringToPath`. -/
def splitDotsAux : List Char → List Char → List String
  | [], acc => [⟨acc.reverse⟩]
  | c :: rest, acc =>
    if c = '.' then ⟨acc.reverse⟩ :: splitDotsAux rest []
    else splitDotsAux rest (c :: acc)

/-- The path segments of one dict key, as lodash derives them from the
composed string path `field ++ "." ++ key` after the fixed `field` prefix:
the key split on dots. -/
def splitKey (k : String) : List String := splitDotsAux k.data []

/-- A plain property name: one that engages neither the dot nor the bracket
syntax of lodash string paths, so the composed path addresses the key
atomically in one walk step. -/
def plainSegment (k : String) : Bool :=
  k.data.all (fun c => c ≠ '.' && c ≠ '[' && c ≠ ']')

/-- One step of the lodash path walk (`object[toKey(segment)]`) over this
value universe: a key of a plain object; a canonical numeric index or
`length` of an array or of a string (a string index yields a one-character
string).  Properties that only exist on host prototypes (such as a pattern
object's `source`) lie outside the value universe of this embedding. -/
def jsGetSeg (v : JsVal) (seg : String) : Option JsVal :=
  match v with
  | .vObj fs => fs.lookup seg
  | .vList xs =>
    if seg = "length" then some (.vNum xs.length)
    else
      match seg.toNat? with
      | some i => if natToString i = seg then xs.get? i else none
      | none => none
  | .vStr s =>
    if seg = "length" then some (.vNum s.length)
    else
      match seg.toNat? with
      | some i =>
        if natToString i = seg then (s.data.get? i).map (fun c => .vStr (String.singleton c))
        else none
      | none => none
  | _ => none

/-- The lodash `baseGet` walk: resolve one property per path segment,
stopping with nothing as soon as a segment is missing. -/
def jsGetPath : JsVal → List String → Option JsVal
  | v, [] => some v
  | v, seg :: rest =>
    match jsGetSeg v seg with
    | some next => jsGetPath next rest
    | none => none

/-- `_.get(options, field)` for a string-matcher field path.  For a dict
entry the source composes the string path `"headers." ++ key` (resp.
`query`), which lodash splits on dots and walks one property per segment —
a key that itself contains a dot is therefore never looked up atomically:
`headers.a.b` resolves `headers`, then `a`, then `b`.  Over this value
universe a path resolves under `_.has` exactly when it resolves under
`_.get` (own keys of plain objects, indices and `length` of arrays and
strings), so one walk models both. -/
def getField (options : RouteMatcherOptions) : StrField → Option JsVal
  | .method => options.method
  | .url => options.url
  | .headerEntry k => options.headers.bind (fun hs => jsGetPath (.vObj hs) (splitKey k))
  | .queryEntry k => options.query.bind (fun qs => jsGetPath (.vObj qs) (splitKey k))

/-- The display form of a field path, as interpolated into error messages. -/
def fieldPath : StrField → String
  | .method => "method"
  | .url => "url"
  | .headerEntry k => "headers." ++ k
  | .queryEntry k => "query." ++ k

/-- `isRegExp`. -/
def isRegExpV : JsVal → Bool
  | .vRegex _ => true
  | _ => false

/-- `isStringMatcher`: a RegExp or a string. -/
def isStringMatcherV (v : JsVal) : Bool :=
  isRegExpV v || (match v with | .vStr _ => true | _ => false)

/-- `_.isBoolean`. -/
def isBooleanV : JsVal → Bool
  | .vBool _ => true
  | _ => false

def isNumberV : JsVal → Bool
  | .vNum _ => true
  | _ => false

/-- `isNumberMatcher`: an array in which every element is a number, or a
number. -/
def isNumberMatcherV (v : JsVal) : Bool :=
  match v with
  | .vList xs => xs.all isNumberV
  | v => isNumberV v

/-- `validateRouteMatcherOptions`: returns `some message` when the matcher is
structurally invalid (the source throws), `none` when it passes.  Checks, in
source order: emptiness, every string-matcher field path, `https`, `port`. -/
def validateRouteMatcherOptions (routeMatcher : RouteMatcherOptions) : Option String :=
  if isEmptyOptions routeMatcher then
    some "The RouteMatcher does not contain any keys. You must pass something to match on."
  else
    match (getAllStringMatcherFields routeMatcher).findSome? (fun path =>
        match getField routeMatcher path with
        | some v => if isStringMatcherV v then none else some (fieldPath path)
        | none => none) with
    | some badPath => some ("`" ++ badPath ++ "` must be a string or a regular expression.")
    | none =>
      match routeMatcher.https with
      | some v =>
        if !(isBooleanV v) then
          some "`https` must be a boolean."
        else validatePort routeMatcher
      | none => validatePort routeMatcher
where
  validatePort (routeMatcher : RouteMatcherOptions) : Option String :=
    match routeMatcher.port with
    | some v =>
      if !isNumberMatcherV v then some "`port` must be a number or a list of numbers."
      else none
    | none => none

/-- The tagged transmissible form of one string/pattern-capable value:
`type` is `regex` for pattern objects and `glob` for plain strings. -/
inductive MatcherKindTag where
  | glob
  | regex
  deriving Repr, DecidableEq

structure AnnotatedStringMatcher where
  type : MatcherKindTag
  value : String
  deriving Repr, DecidableEq

/-- `AnnotatedRouteMatcherOptions`: the transmissible form of a matcher. -/
structure AnnotatedRouteMatcherOptions where
  method : Option AnnotatedStringMatcher := none
  url : Option AnnotatedStringMatcher := none
  headers : Option (List (String × AnnotatedStringMatcher)) := none
  query : Option (List (String × AnnotatedStringMatcher)) := none
  https : Option JsVal := none
  port : Option JsVal := none
  webSocket : Option JsVal := none
  deriving Repr

/-- `_.set` on an object-valued key: overwrite an existing binding in place,
append a missing one. -/
def setAssoc {α : Type} : List (String × α) → String → α → List (String × α)
  | [], k, v => [(k, v)]
  | (k', v') :: rest, k, v =>
    if k' = k then (k, v) :: rest else (k', v') :: setAssoc rest k v

/-- `_.set(ret, field, annotated)` over the annotated-matcher shape.  For a
plain (single-segment) dict key this is exactly the lodash write: overwrite
the existing binding or append a fresh one.  A dotted key would make `_.set`
create nested objects inside the annotated dict; that nested shape is
outside the flat annotated form used here, and such a key can reach this
write at all only when a sibling key chain resolves the dotted read path. -/
def setAnnField (r : AnnotatedRouteMatcherOptions) (f : StrField)
    (v : AnnotatedStringMatcher) : AnnotatedRouteMatcherOptions :=
  match f with
  | .method => { r with method := some v }
  | .url => { r with url := some v }
  | .headerEntry k => { r with headers := some (setAssoc (r.headers.getD []) k v) }
  | .queryEntry k => { r with query := some (setAssoc (r.query.getD []) k v) }

def annotateValue (v : JsVal) : AnnotatedStringMatcher :=
  { type := if isRegExpV v then .regex else .glob, value := jsToString v }

/-- One iteration of the annotation loop: annotate and store the value at
`field` when it is truthy, otherwise leave the accumulator unchanged. -/
def annStep (options : RouteMatcherOptions) (r : AnnotatedRouteMatcherOptions)
    (field : StrField) : AnnotatedRouteMatcherOptions :=
  match getField options field with
  | some value => if truthy value then setAnnField r field (annotateValue value) else r
  | none => r

/-- `annotateMatcherOptionsTypes`: for every string-matcher field path whose
value is truthy, store the tagged `(type, value)` form; then copy `https`,
`port` and `webSocket` over verbatim. -/
def annotateMatcherOptionsTypes (options : RouteMatcherOptions) :
    AnnotatedRouteMatcherOptions :=
  let ret := (getAllStringMatcherFields options).foldl (annStep options)
    ({} : AnnotatedRouteMatcherOptions)
  { ret with https := options.https, port := options.port, webSocket := options.webSocket }

/-- Modelled from the spec: the receiving-side rehydration of one tagged
value — `regex` becomes a native pattern built from the transmitted string
form, `glob` stays a literal string.  The backend rehydration code is not
among the given sources. -/
def rehydrateStringMatcher (a : AnnotatedStringMatcher) : JsVal :=
  match a.type with
  | .regex => .vRegex a.value
  | .glob => .vStr a.value

/-- Modelled from the spec: receiving-side reconstruction of a matcher from
its annotated form; every tagged field is rehydrated and the untagged fields
pass through. -/
def rehydrateAnnotated (a : AnnotatedRouteMatcherOptions) : RouteMatcherOptions :=
  { method := a.method.map rehydrateStringMatcher
    url := a.url.map rehydrateStringMatcher
    headers := a.headers.map (List.map (fun kv => (kv.1, rehydrateStringMatcher kv.2)))
    query := a.query.map (List.map (fun kv => (kv.1, rehydrateStringMatcher kv.2)))
    https := a.https
    port := a.port
    webSocket := a.webSocket }

/-- A user-supplied `RouteHandler` argument (the second/third parameter of
the public registration command): a callable interceptor, a string, a
RegExp, a plain mapping, or a value of some other type that the
classification switch rejects. -/
inductive RouteHandler where
  | interceptor (id : Nat)
  | hstr (s : String)
  | hregex (source : String)
  | hobj (fields : List (String × JsVal))
  | hnum (n : Int)
  | hbool (b : Bool)
  | hnull
  deriving Repr

/-- JavaScript truthiness of a handler value (`!!handler`). -/
def truthyHandler : RouteHandler → Bool
  | .hstr s => s ≠ ""
  | .hnum n => n ≠ 0
  | .hbool b => b
  | .hnull => false
  | _ => true

def truthyHandlerOpt : Option RouteHandler → Bool
  | some h => truthyHandler h
  | none => false

def STATIC_RESPONSE_KEYS : List String :=
  ["body", "fixture", "statusCode", "headers", "destroySocket"]

def keysOf (fs : List (String × JsVal)) : List String := fs.map Prod.fst

/-- Modelled from the spec: `validateStaticResponse` lives in
`static-response-utils`, which is not among the given sources.  Per the spec
it rejects a static response that sets `destroySocket` together with a body
or a status code (`ConflictingResponseFields`); otherwise it accepts. -/
def validateStaticResponse (sr : List (String × JsVal)) : Option String :=
  let destroys := match sr.lookup "destroySocket" with
    | some v => truthy v
    | none => false
  if destroys && ((sr.lookup "body").isSome || (sr.lookup "statusCode").isSome) then
    some "`destroySocket`, if passed, must be the only option in the StaticResponse."
  else none

/-- The wrapped form of a JSON-object handler: the entire mapping as a
JSON-encoded body plus a JSON content-type header. -/
def wrapJsonObject (fs : List (String × JsVal)) : List (String × JsVal) :=
  [("body", .vStr (jsonStringifyVal (.vObj fs))),
   ("headers", .vObj [("content-type", .vStr "application/json")])]

/-- The transmissible static response sent to the backend. -/
structure BackendStaticResponse where
  body : String
  statusCode : Int
  headers : List (String × String)
  destroySocket : Bool
  deriving Repr

/-- Modelled from the spec: `getBackendStaticResponse` lives in
`static-response-utils`, which is not among the given sources.  Per the spec
the normalizer fills in defaults — status 200 when absent, a descriptive
placeholder body when absent, an empty header mapping when absent. -/
def getBackendStaticResponse (sr : List (String × JsVal)) : BackendStaticResponse :=
  { body := match sr.lookup "body" with
      | some (.vStr s) => s
      | some v => jsToString v
      | none => "< empty body >"
    statusCode := match sr.lookup "statusCode" with
      | some (.vNum n) => n
      | _ => 200
    headers := match sr.lookup "headers" with
      | some (.vObj hs) => hs.map (fun kv => (kv.1, jsToString kv.2))
      | _ => []
    destroySocket := match sr.lookup "destroySocket" with
      | some v => truthy v
      | none => false }

/-- The errors the registration path can raise. -/
inductive RegError where
  | route2NeedsExperimental
  | invalidRouteMatcher (msg : String)
  | invalidStaticResponse (msg : String)
  | invalidHandler
  deriving Repr, DecidableEq

/-- The `switch (true)` handler classification inside `addRoute`, in source
order: callable, absent, string, object-like (with the JSON-object wrap for a
non-empty mapping sharing no STATIC_RESPONSE_KEYS, then static-response
validation), anything else rejected.  Returns the possibly-rewritten handler
together with the derived static-response mapping, if any.  A RegExp is
object-like with no own enumerable keys, so it reaches the object branch as
an empty mapping. -/
def classifyHandler (handler : Option RouteHandler) :
    Except RegError (Option RouteHandler × Option (List (String × JsVal))) :=
  match handler with
  | some (.interceptor i) => .ok (some (.interceptor i), none)
  | none => .ok (none, none)
  | some (.hstr s) => .ok (some (.hstr s), some [("body", .vStr s)])
  | some (.hobj fs) =>
    let fs' := if ((keysOf fs).filter (fun k => k ∈ STATIC_RESPONSE_KEYS)).isEmpty
        && !fs.isEmpty then wrapJsonObject fs else fs
    (match validateStaticResponse fs' with
     | some err => .error (.invalidStaticResponse err)
     | none => .ok (some (.hobj fs'), some fs'))
  | some (.hregex r) =>
    (match validateStaticResponse [] with
     | some err => .error (.invalidStaticResponse err)
     | none => .ok (some (.hregex r), some []))
  | some _ => .error .invalidHandler

/-- One entry of `state('routes')`. -/
structure RouteEntry where
  options : RouteMatcherOptions
  handler : Option RouteHandler
  isStubbed : Bool
  hitCount : Nat
  requests : List String
  aliasName : Option String
  deriving Repr

/-- The `route:added` frame emitted to the backend. -/
structure AddRouteFrame where
  handlerId : String
  routeMatcher : AnnotatedRouteMatcherOptions
  staticResponse : Option BackendStaticResponse
  deriving Repr

/-- The registration-relevant driver state: the `_.uniqueId` per-process
counter, the route table, and the frames emitted to the backend. -/
structure DriverState where
  uniqueIdCounter : Nat
  routes : List (String × RouteEntry)
  emitted : List AddRouteFrame
  deriving Repr

/-- `getUniqueId`: the current timestamp and the next value of the
per-process `_.uniqueId` counter, joined by a dash. -/
def getUniqueId (time counter : Nat) : String :=
  natToString time ++ "-" ++ natToString counter

/-- `addRoute`: allocate the handler id (advancing the unique-id counter),
classify the handler, normalize any static response into the frame, insert
the route entry, and emit the `route:added` frame.  A classification failure
throws after the id was allocated but before any insertion or emission. -/
def addRoute (time : Nat) (aliasArg : Option String) (matcher : RouteMatcherOptions)
    (handler : Option RouteHandler) (st : DriverState) :
    Except RegError String × DriverState :=
  let handlerId := getUniqueId time st.uniqueIdCounter
  let st1 : DriverState := { st with uniqueIdCounter := st.uniqueIdCounter + 1 }
  match classifyHandler handler with
  | .error e => (.error e, st1)
  | .ok (handler', staticResponse) =>
    let frame : AddRouteFrame :=
      { handlerId := handlerId
        routeMatcher := annotateMatcherOptionsTypes matcher
        staticResponse := staticResponse.map getBackendStaticResponse }
    let entry : RouteEntry :=
      { options := matcher
        handler := handler'
        isStubbed := truthyHandlerOpt handler'
        hitCount := 0
        requests := []
        aliasName := match aliasArg with
          | some a => if a ≠ "" then some a else none
          | none => none }
    (.ok handlerId,
      { st1 with
        routes := st1.routes ++ [(handlerId, entry)]
        emitted := st1.emitted ++ [frame] })

/-- The first positional argument of the registration command. -/
inductive RouteMatcherArg where
  | mstr (s : String)
  | mregex (source : String)
  | moptions (o : RouteMatcherOptions)
  deriving Repr

/-- The second argument viewed as a StringMatcher, when it is one. -/
def asStringMatcherArg : Option RouteHandler → Option JsVal
  | some (.hstr s) => some (.vStr s)
  | some (.hregex r) => some (.vRegex r)
  | _ => none

/-- `getMatcherOptions` inside `route2`: resolves the shorthand forms.  The
`(method, url, handler)` form applies only when the first argument is a
string, the second a StringMatcher and the third truthy; otherwise a
string-or-pattern first argument is a bare url; otherwise the first argument
is already the full matcher object.  Returns the resolved matcher together
with the (possibly shifted) handler. -/
def getMatcherOptions (matcher : RouteMatcherArg)
    (handler arg2 : Option RouteHandler) :
    RouteMatcherOptions × Option RouteHandler :=
  match matcher with
  | .mstr m =>
    (match asStringMatcherArg handler, arg2 with
     | some u, some a2 =>
       if truthyHandler a2 then
         ({ emptyMatcher with method := some (.vStr m), url := some u }, some a2)
       else ({ emptyMatcher with url := some (.vStr m) }, handler)
     | _, _ => ({ emptyMatcher with url := some (.vStr m) }, handler))
  | .mregex r => ({ emptyMatcher with url := some (.vRegex r) }, handler)
  | .moptions o => (o, handler)

/-- `route2`: the public registration entry point — experimental-flag gate,
shorthand resolution, matcher validation, then `addRoute`. -/
def route2 (experimental : Bool) (time : Nat) (aliasArg : Option String)
    (matcher : RouteMatcherArg) (handler arg2 : Option RouteHandler)
    (st : DriverState) : Except RegError String × DriverState :=
  if experimental = false then (.error .route2NeedsExperimental, st)
  else
    let resolved := getMatcherOptions matcher handler arg2
    match validateRouteMatcherOptions resolved.1 with
    | some err => (.error (.invalidRouteMatcher err), st)
    | none => addRoute time aliasArg resolved.1 resolved.2 st

/-- One call to the registration command, with its ambient timestamp. -/
structure RegCall where
  experimental : Bool
  time : Nat
  aliasArg : Option String
  matcher : RouteMatcherArg
  handler : Option RouteHandler
  arg2 : Option RouteHandler

/-- Run a sequence of registration calls, threading the driver state and
collecting the handler ids of the successful registrations. -/
def runCalls : List RegCall → DriverState → List String × DriverState
  | [], st => ([], st)
  | c :: cs, st =>
    let r := route2 c.experimental c.time c.aliasArg c.matcher c.handler c.arg2 st
    let rest := runCalls cs r.2
    (match r.1 with
     | .ok id => id :: rest.1
     | .error _ => rest.1, rest.2)

/-! Claim-side predicates, written from the words of the specification (for
the validation characterization these are compared against the
source-derived `validateRouteMatcherOptions`). -/

/-- A value that is a string or a pattern object, in the words of the spec. -/
def isStringOrPatternSpec : JsVal → Prop
  | .vStr _ => True
  | .vRegex _ => True
  | _ => False

instance (v : JsVal) : Decidable (isStringOrPatternSpec v) := by
  unfold isStringOrPatternSpec
  cases v <;> infer_instance

/-- A value that is a boolean, in the words of the spec. -/
def isBooleanSpec : JsVal → Prop
  | .vBool _ => True
  | _ => False

instance (v : JsVal) : Decidable (isBooleanSpec v) := by
  unfold isBooleanSpec
  cases v <;> infer_instance

/-- A value that is a number, in the words of the spec. -/
def isNumberSpec : JsVal → Prop
  | .vNum _ => True
  | _ => False

instance (v : JsVal) : Decidable (isNumberSpec v) := by
  unfold isNumberSpec
  cases v <;> infer_instance

/-- A value that is a number, or a list in which every element is a number,
in the words of the spec. -/
def isNumberOrNumberListSpec : JsVal → Prop
  | .vNum _ => True
  | .vList xs => ∀ x ∈ xs, isNumberSpec x
  | _ => False

instance (v : JsVal) : Decidable (isNumberOrNumberListSpec v) := by
  unfold isNumberOrNumberListSpec
  cases v <;> infer_instance

/-- The conditions under which, according to the claim, matcher validation
fails with a `MalformedMatcher` error: the spec is empty; some
string/pattern-capable field (including nested header/query entries) has a
value that is neither a string nor a pattern object; `https` is present and
not a boolean; `port` is present and is neither a number nor a list of
numbers. -/
def specMalformed (m : RouteMatcherOptions) : Prop :=
  isEmptyOptions m = true
    ∨ (∃ v, m.method = some v ∧ ¬ isStringOrPatternSpec v)
    ∨ (∃ v, m.url = some v ∧ ¬ isStringOrPatternSpec v)
    ∨ (∃ hs, m.headers = some hs ∧ ∃ kv ∈ hs, ¬ isStringOrPatternSpec kv.2)
    ∨ (∃ qs, m.query = some qs ∧ ∃ kv ∈ qs, ¬ isStringOrPatternSpec kv.2)
    ∨ (∃ v, m.https = some v ∧ ¬ isBooleanSpec v)
    ∨ (∃ v, m.port = some v ∧ ¬ isNumberOrNumberListSpec v)

/-- Structural registration failures: malformed matcher, invalid handler, or
conflicting static-response fields. -/
def structuralFailure : Except RegError String → Prop
  | .error (.invalidRouteMatcher _) => True
  | .error .invalidHandler => True
  | .error (.invalidStaticResponse _) => True
  | _ => False

/-- A present value that a valid matcher may carry in a string/pattern
field and that annotation keeps: a string or pattern that is truthy (a
pattern object or a nonempty string). -/
def keptStringValue (v : JsVal) : Bool :=
  isStringMatcherV v && truthy v

/-- An initial driver state for concrete runs. -/
def st0 : DriverState := { uniqueIdCounter := 0, routes := [], emitted := [] }

/-- The matcher `\x7burl: ""\x7d`: url present with the empty string. -/
def justEmptyUrl : RouteMatcherOptions := { emptyMatcher with url := some (.vStr "") }

/-- The matcher `\x7burl: "foo"\x7d`. -/
def urlFoo : RouteMatcherOptions := { emptyMatcher with url := some (.vStr "foo") }

/-- The numeric value denoted by a list of decimal digit characters (the
left inverse of `natDigits`, used to prove handler-id uniqueness). -/
def digitsVal (l : List Char) : Nat :=
  l.foldl (fun a c => a * 10 + (c.toNat - 48)) 0

/-! Helper lemmas about the annotation fold. -/

theorem jsGetPath_single (hs : List (String × JsVal)) (k : String) :
    jsGetPath (.vObj hs) [k] = hs.lookup k := by
  cases hl : hs.lookup k <;> simp [jsGetPath, jsGetSeg, hl]

theorem splitDotsAux_no_dot :
    ∀ (l acc : List Char), '.' ∉ l → splitDotsAux l acc = [⟨acc.reverse ++ l⟩] := by
  intro l
  induction l with
  | nil => intro acc _; simp [splitDotsAux]
  | cons c rest ih =>
    intro acc h
    have hc : c ≠ '.' := fun he => h (he ▸ List.mem_cons_self c rest)
    rw [splitDotsAux, if_neg hc, ih (c :: acc) (fun hm => h (List.mem_cons_of_mem _ hm))]
    congr 2
    simp

/-- A plain property name is one path segment: splitting it leaves it
whole. -/
theorem plainSegment_splitKey (k : String) (h : plainSegment k = true) :
    splitKey k = [k] := by
  have hnd : '.' ∉ k.data := by
    intro hm
    have := List.all_eq_true.mp h '.' hm
    simp at this
  rw [splitKey, splitDotsAux_no_dot k.data [] hnd]
  rfl

/-- On a plain (single-segment) dict key, the path walk is exactly the
atomic key lookup. -/
theorem getField_headerEntry_plain (m : RouteMatcherOptions)
    (hs : List (String × JsVal)) (k : String) (hm : m.headers = some hs)
    (hk : plainSegment k = true) :
    getField m (.headerEntry k) = hs.lookup k := by
  have h1 : getField m (.headerEntry k) = jsGetPath (.vObj hs) (splitKey k) := by
    simp [getField, hm]
  rw [h1, plainSegment_splitKey k hk, jsGetPath_single]

theorem getField_queryEntry_plain (m : RouteMatcherOptions)
    (qs : List (String × JsVal)) (k : String) (hq : m.query = some qs)
    (hk : plainSegment k = true) :
    getField m (.queryEntry k) = qs.lookup k := by
  have h1 : getField m (.queryEntry k) = jsGetPath (.vObj qs) (splitKey k) := by
    simp [getField, hq]
  rw [h1, plainSegment_splitKey k hk, jsGetPath_single]

theorem annStep_method_of_ne (m : RouteMatcherOptions) (r : AnnotatedRouteMatcherOptions)
    (f : StrField) (h : f ≠ .method) : (annStep m r f).method = r.method := by
  unfold annStep
  cases hv : getField m f with
  | none => rfl
  | some v =>
    by_cases ht : truthy v
    · simp only [ht, if_true]
      cases f with
      | method => exact absurd rfl h
      | url => rfl
      | headerEntry k => rfl
      | queryEntry k => rfl
    · simp [ht]

theorem annStep_url_of_ne (m : RouteMatcherOptions) (r : AnnotatedRouteMatcherOptions)
    (f : StrField) (h : f ≠ .url) : (annStep m r f).url = r.url := by
  unfold annStep
  cases hv : getField m f with
  | none => rfl
  | some v =>
    by_cases ht : truthy v
    · simp only [ht, if_true]
      cases f with
      | method => rfl
      | url => exact absurd rfl h
      | headerEntry k => rfl
      | queryEntry k => rfl
    · simp [ht]

theorem annStep_headers_of_ne (m : RouteMatcherOptions) (r : AnnotatedRouteMatcherOptions)
    (f : StrField) (h : ∀ k, f ≠ .headerEntry k) : (annStep m r f).headers = r.headers := by
  unfold annStep
  cases hv : getField m f with
  | none => rfl
  | some v =>
    by_cases ht : truthy v
    · simp only [ht, if_true]
      cases f with
      | method => rfl
      | url => rfl
      | headerEntry k => exact absurd rfl (h k)
      | queryEntry k => rfl
    · simp [ht]

theorem annStep_query_of_ne (m : RouteMatcherOptions) (r : AnnotatedRouteMatcherOptions)
    (f : StrField) (h : ∀ k, f ≠ .queryEntry k) : (annStep m r f).query = r.query := by
  unfold annStep
  cases hv : getField m f with
  | none => rfl
  | some v =>
    by_cases ht : truthy v
    · simp only [ht, if_true]
      cases f with
      | method => rfl
      | url => rfl
      | headerEntry k => rfl
      | queryEntry k => exact absurd rfl (h k)
    · simp [ht]

theorem foldl_annStep_method_of_ne (m : RouteMatcherOptions) (l : List StrField) :
    ∀ r : AnnotatedRouteMatcherOptions, (∀ f ∈ l, f ≠ .method) →
      (l.foldl (annStep m) r).method = r.method := by
  induction l with
  | nil => intro r _; rfl
  | cons f fs ih =>
    intro r h
    rw [List.foldl_cons, ih _ (fun g hg => h g (List.mem_cons_of_mem _ hg)),
      annStep_method_of_ne m r f (h f (List.mem_cons_self _ _))]

theorem foldl_annStep_url_of_ne (m : RouteMatcherOptions) (l : List StrField) :
    ∀ r : AnnotatedRouteMatcherOptions, (∀ f ∈ l, f ≠ .url) →
      (l.foldl (annStep m) r).url = r.url := by
  induction l with
  | nil => intro r _; rfl
  | cons f fs ih =>
    intro r h
    rw [List.foldl_cons, ih _ (fun g hg => h g (List.mem_cons_of_mem _ hg)),
      annStep_url_of_ne m r f (h f (List.mem_cons_self _ _))]

theorem foldl_annStep_headers_of_ne (m : RouteMatcherOptions) (l : List StrField) :
    ∀ r : AnnotatedRouteMatcherOptions, (∀ f ∈ l, ∀ k, f ≠ .headerEntry k) →
      (l.foldl (annStep m) r).headers = r.headers := by
  induction l with
  | nil => intro r _; rfl
  | cons f fs ih =>
    intro r h
    rw [List.foldl_cons, ih _ (fun g hg => h g (List.mem_cons_of_mem _ hg)),
      annStep_headers_of_ne m r f (h f (List.mem_cons_self _ _))]

theorem foldl_annStep_query_of_ne (m : RouteMatcherOptions) (l : List StrField) :
    ∀ r : AnnotatedRouteMatcherOptions, (∀ f ∈ l, ∀ k, f ≠ .queryEntry k) →
      (l.foldl (annStep m) r).query = r.query := by
  induction l with
  | nil => intro r _; rfl
  | cons f fs ih =>
    intro r h
    rw [List.foldl_cons, ih _ (fun g hg => h g (List.mem_cons_of_mem _ hg)),
      annStep_query_of_ne m r f (h f (List.mem_cons_self _ _))]

/-- The tail of the annotation field list (everything after `.method` and
`.url`) consists of dict entries only. -/
theorem dictFields_are_entries (m : RouteMatcherOptions) :
    ∀ f ∈ headerBlock m.headers ++ queryBlock m.query,
      (∃ k, f = .headerEntry k) ∨ (∃ k, f = .queryEntry k) := by
  intro f hf
  rcases List.mem_append.mp hf with h | h
  · left
    cases hh : m.headers with
    | none => rw [hh] at h; exact absurd h (List.not_mem_nil f)
    | some hs =>
      rw [hh] at h
      obtain ⟨⟨k, v⟩, _, hkv⟩ := List.mem_map.mp h
      exact ⟨k, hkv.symm⟩
  · right
    cases hq : m.query with
    | none => rw [hq] at h; exact absurd h (List.not_mem_nil f)
    | some qs =>
      rw [hq] at h
      obtain ⟨⟨k, v⟩, _, hkv⟩ := List.mem_map.mp h
      exact ⟨k, hkv.symm⟩

theorem annStep_url_self (m : RouteMatcherOptions) (r : AnnotatedRouteMatcherOptions) :
    (annStep m r .url).url =
      (match m.url with
       | some v => if truthy v then some (annotateValue v) else r.url
       | none => r.url) := by
  simp only [annStep, getField]
  cases m.url with
  | none => rfl
  | some v =>
    by_cases ht : truthy v
    · simp [ht, setAnnField]
    · simp [ht]

theorem annStep_method_self (m : RouteMatcherOptions) (r : AnnotatedRouteMatcherOptions) :
    (annStep m r .method).method =
      (match m.method with
       | some v => if truthy v then some (annotateValue v) else r.method
       | none => r.method) := by
  simp only [annStep, getField]
  cases m.method with
  | none => rfl
  | some v =>
    by_cases ht : truthy v
    · simp [ht, setAnnField]
    · simp [ht]

/-- The `url` component of an annotated matcher is the annotated original
`url` value when that value is present and truthy, and absent otherwise. -/
theorem annotate_url_component (m : RouteMatcherOptions) :
    (annotateMatcherOptionsTypes m).url =
      (match m.url with
       | some v => if truthy v then some (annotateValue v) else none
       | none => none) := by
  have h1 : (annStep m {} .method).url = none :=
    annStep_url_of_ne m {} .method (by simp)
  unfold annotateMatcherOptionsTypes getAllStringMatcherFields
  show (List.foldl (annStep m) {} ([.method, .url] ++ _ ++ _)).url = _
  rw [List.append_assoc, List.foldl_append]
  rw [foldl_annStep_url_of_ne m _ _ (fun f hf => by
    rcases dictFields_are_entries m f hf with ⟨k, hk⟩ | ⟨k, hk⟩ <;> simp [hk])]
  rw [List.foldl_cons, List.foldl_cons, List.foldl_nil, annStep_url_self, h1]

/-- The `method` component of an annotated matcher is the annotated original
`method` value when that value is present and truthy, and absent otherwise. -/
theorem annotate_method_component (m : RouteMatcherOptions) :
    (annotateMatcherOptionsTypes m).method =
      (match m.method with
       | some v => if truthy v then some (annotateValue v) else none
       | none => none) := by
  unfold annotateMatcherOptionsTypes getAllStringMatcherFields
  show (List.foldl (annStep m) {} ([.method, .url] ++ _ ++ _)).method = _
  rw [List.append_assoc, List.foldl_append]
  rw [foldl_annStep_method_of_ne m _ _ (fun f hf => by
    rcases dictFields_are_entries m f hf with ⟨k, hk⟩ | ⟨k, hk⟩ <;> simp [hk])]
  rw [List.foldl_cons, List.foldl_cons, List.foldl_nil,
    annStep_method_of_ne m _ .url (by simp), annStep_method_self]

theorem lookup_eq_of_nodup_mem {α : Type} :
    ∀ (l : List (String × α)) (k : String) (v : α),
      (l.map Prod.fst).Nodup → (k, v) ∈ l → l.lookup k = some v := by
  intro l
  induction l with
  | nil => intro k v _ hmem; simp at hmem
  | cons kv rest ih =>
    intro k v hnd hmem
    obtain ⟨k', v'⟩ := kv
    rw [List.lookup_cons]
    rcases List.mem_cons.mp hmem with h | h
    · cases h
      simp
    · have hk : k ≠ k' := by
        intro he
        have : k' ∈ rest.map Prod.fst := by
          subst he
          exact List.mem_map.mpr ⟨(k, v), h, rfl⟩
        exact (List.nodup_cons.mp (by simpa using hnd)).1 this
      simp only [beq_eq_false_iff_ne.mpr hk]
      exact ih k v (List.nodup_cons.mp (by simpa using hnd)).2 h

theorem setAssoc_of_not_mem {α : Type} :
    ∀ (l : List (String × α)) (k : String) (v : α),
      k ∉ l.map Prod.fst → setAssoc l k v = l ++ [(k, v)] := by
  intro l
  induction l with
  | nil => intro k v _; rfl
  | cons kv rest ih =>
    intro k v h
    obtain ⟨k', v'⟩ := kv
    have hk : k' ≠ k := by
      intro he
      exact h (by simp [he])
    simp only [setAssoc, hk, if_false]
    rw [ih k v (fun hm => h (by simp [hm]))]
    simp

/-- Effect of the annotation fold over a block of `headerEntry` fields: with
distinct keys, values looked up in the full `headers` map, and every value
truthy, the entries are appended in order to the accumulated `headers`
component, which springs into existence at the first entry. -/
theorem foldl_annStep_headerEntries (m : RouteMatcherOptions)
    (full : List (String × JsVal)) (hm : m.headers = some full)
    (hndfull : (full.map Prod.fst).Nodup)
    (hsegfull : ∀ kv ∈ full, plainSegment kv.1 = true) :
    ∀ (l : List (String × JsVal)) (r : AnnotatedRouteMatcherOptions),
      l ⊆ full →
      (∀ kv ∈ l, truthy kv.2 = true) →
      (∀ kv ∈ l, kv.1 ∉ (r.headers.getD []).map Prod.fst) →
      (l.map Prod.fst).Nodup →
      ((l.map (fun kv => StrField.headerEntry kv.1)).foldl (annStep m) r).headers =
        (if l.isEmpty then r.headers
         else some ((r.headers.getD [])
            ++ l.map (fun kv => (kv.1, annotateValue kv.2)))) := by
  intro l
  induction l with
  | nil => intro r _ _ _ _; rfl
  | cons kv rest ih =>
    intro r hsub htr hfresh hnd
    obtain ⟨k, v⟩ := kv
    have hlook : getField m (.headerEntry k) = some v := by
      rw [getField_headerEntry_plain m full k hm
        (hsegfull (k, v) (hsub (List.mem_cons_self _ _)))]
      exact lookup_eq_of_nodup_mem full k v hndfull (hsub (List.mem_cons_self _ _))
    have hstep : (annStep m r (.headerEntry k)) =
        { r with headers := some ((r.headers.getD []) ++ [(k, annotateValue v)]) } := by
      rw [annStep, hlook]
      simp only [htr (k, v) (List.mem_cons_self _ _), if_true, setAnnField]
      rw [setAssoc_of_not_mem _ _ _ (hfresh (k, v) (List.mem_cons_self _ _))]
    rw [List.map_cons, List.foldl_cons, hstep]
    rw [ih _ (fun x hx => hsub (List.mem_cons_of_mem _ hx))
      (fun x hx => htr x (List.mem_cons_of_mem _ hx))
      (fun x hx => by
        simp only [Option.getD_some, List.map_append]
        intro hmm
        rcases List.mem_append.mp hmm with h | h
        · exact hfresh x (List.mem_cons_of_mem _ hx) h
        · have hx1 : x.1 = k := by simpa using h
          have : k ∈ rest.map Prod.fst := hx1 ▸ List.mem_map.mpr ⟨x, hx, rfl⟩
          exact (List.nodup_cons.mp (by simpa using hnd)).1 this)
      (List.nodup_cons.mp (by simpa using hnd)).2]
    cases rest with
    | nil => simp
    | cons kv2 rest2 => simp

/-- Effect of the annotation fold over a block of `queryEntry` fields. -/
theorem foldl_annStep_queryEntries (m : RouteMatcherOptions)
    (full : List (String × JsVal)) (hm : m.query = some full)
    (hndfull : (full.map Prod.fst).Nodup)
    (hsegfull : ∀ kv ∈ full, plainSegment kv.1 = true) :
    ∀ (l : List (String × JsVal)) (r : AnnotatedRouteMatcherOptions),
      l ⊆ full →
      (∀ kv ∈ l, truthy kv.2 = true) →
      (∀ kv ∈ l, kv.1 ∉ (r.query.getD []).map Prod.fst) →
      (l.map Prod.fst).Nodup →
      ((l.map (fun kv => StrField.queryEntry kv.1)).foldl (annStep m) r).query =
        (if l.isEmpty then r.query
         else some ((r.query.getD [])
            ++ l.map (fun kv => (kv.1, annotateValue kv.2)))) := by
  intro l
  induction l with
  | nil => intro r _ _ _ _; rfl
  | cons kv rest ih =>
    intro r hsub htr hfresh hnd
    obtain ⟨k, v⟩ := kv
    have hlook : getField m (.queryEntry k) = some v := by
      rw [getField_queryEntry_plain m full k hm
        (hsegfull (k, v) (hsub (List.mem_cons_self _ _)))]
      exact lookup_eq_of_nodup_mem full k v hndfull (hsub (List.mem_cons_self _ _))
    have hstep : (annStep m r (.queryEntry k)) =
        { r with query := some ((r.query.getD []) ++ [(k, annotateValue v)]) } := by
      rw [annStep, hlook]
      simp only [htr (k, v) (List.mem_cons_self _ _), if_true, setAnnField]
      rw [setAssoc_of_not_mem _ _ _ (hfresh (k, v) (List.mem_cons_self _ _))]
    rw [List.map_cons, List.foldl_cons, hstep]
    rw [ih _ (fun x hx => hsub (List.mem_cons_of_mem _ hx))
      (fun x hx => htr x (List.mem_cons_of_mem _ hx))
      (fun x hx => by
        simp only [Option.getD_some, List.map_append]
        intro hmm
        rcases List.mem_append.mp hmm with h | h
        · exact hfresh x (List.mem_cons_of_mem _ hx) h
        · have hx1 : x.1 = k := by simpa using h
          have : k ∈ rest.map Prod.fst := hx1 ▸ List.mem_map.mpr ⟨x, hx, rfl⟩
          exact (List.nodup_cons.mp (by simpa using hnd)).1 this)
      (List.nodup_cons.mp (by simpa using hnd)).2]
    cases rest with
    | nil => simp
    | cons kv2 rest2 => simp

theorem headerBlock_entries (o : Option (List (String × JsVal))) :
    ∀ f ∈ headerBlock o, ∃ k, f = .headerEntry k := by
  intro f hf
  cases o with
  | none => exact absurd hf (List.not_mem_nil f)
  | some hs =>
    obtain ⟨⟨k, v⟩, _, hkv⟩ := List.mem_map.mp hf
    exact ⟨k, hkv.symm⟩

theorem queryBlock_entries (o : Option (List (String × JsVal))) :
    ∀ f ∈ queryBlock o, ∃ k, f = .queryEntry k := by
  intro f hf
  cases o with
  | none => exact absurd hf (List.not_mem_nil f)
  | some qs =>
    obtain ⟨⟨k, v⟩, _, hkv⟩ := List.mem_map.mp hf
    exact ⟨k, hkv.symm⟩

/-- The `headers` component of an annotated matcher, for a present headers
map with distinct keys and truthy values: absent when the map is empty,
otherwise the entrywise-annotated map. -/
theorem annotate_headers_component (m : RouteMatcherOptions)
    (full : List (String × JsVal)) (hm : m.headers = some full)
    (hnd : (full.map Prod.fst).Nodup) (htr : ∀ kv ∈ full, truthy kv.2 = true)
    (hseg : ∀ kv ∈ full, plainSegment kv.1 = true) :
    (annotateMatcherOptionsTypes m).headers =
      (if full.isEmpty then none
       else some (full.map (fun kv => (kv.1, annotateValue kv.2)))) := by
  unfold annotateMatcherOptionsTypes getAllStringMatcherFields
  show (List.foldl (annStep m) {}
      ([.method, .url] ++ headerBlock m.headers ++ queryBlock m.query)).headers = _
  rw [List.foldl_append]
  rw [foldl_annStep_headers_of_ne m _ _ (fun f hf k => by
    obtain ⟨k', hk'⟩ := queryBlock_entries m.query f hf
    simp [hk'])]
  rw [hm]
  simp only [headerBlock]
  rw [List.foldl_append]
  have h2 : (List.foldl (annStep m) {} [StrField.method, StrField.url]).headers = none := by
    rw [foldl_annStep_headers_of_ne m _ _ (fun f hf k => by
      rcases List.mem_cons.mp hf with h | h
      · simp [h]
      · rcases List.mem_cons.mp h with h' | h'
        · simp [h']
        · simp at h')]
  rw [foldl_annStep_headerEntries m full hm hnd hseg full _ (List.Subset.refl _) htr
    (fun kv _ => by rw [h2]; simp) hnd]
  rw [h2]
  cases full with
  | nil => rfl
  | cons kv rest => simp

/-- The `query` component of an annotated matcher, for a present query map
with distinct keys and truthy values. -/
theorem annotate_query_component (m : RouteMatcherOptions)
    (full : List (String × JsVal)) (hq : m.query = some full)
    (hnd : (full.map Prod.fst).Nodup) (htr : ∀ kv ∈ full, truthy kv.2 = true)
    (hseg : ∀ kv ∈ full, plainSegment kv.1 = true) :
    (annotateMatcherOptionsTypes m).query =
      (if full.isEmpty then none
       else some (full.map (fun kv => (kv.1, annotateValue kv.2)))) := by
  unfold annotateMatcherOptionsTypes getAllStringMatcherFields
  show (List.foldl (annStep m) {}
      ([.method, .url] ++ headerBlock m.headers ++ queryBlock m.query)).query = _
  rw [List.foldl_append, hq]
  simp only [queryBlock]
  have h2 : (List.foldl (annStep m) {}
      ([StrField.method, StrField.url] ++ headerBlock m.headers)).query = none := by
    rw [List.foldl_append]
    rw [foldl_annStep_query_of_ne m _ _ (fun f hf k => by
      obtain ⟨k', hk'⟩ := headerBlock_entries m.headers f hf
      simp [hk'])]
    rw [foldl_annStep_query_of_ne m _ _ (fun f hf k => by
      rcases List.mem_cons.mp hf with h | h
      · simp [h]
      · rcases List.mem_cons.mp h with h' | h'
        · simp [h']
        · simp at h')]
  rw [foldl_annStep_queryEntries m full hq hnd hseg full _ (List.Subset.refl _) htr
    (fun kv _ => by rw [h2]; simp) hnd]
  rw [h2]
  cases full with
  | nil => rfl
  | cons kv rest => simp

/-- The `headers` component of an annotated matcher is absent when the
original headers map is absent. -/
theorem annotate_headers_component_none (m : RouteMatcherOptions)
    (hm : m.headers = none) : (annotateMatcherOptionsTypes m).headers = none := by
  unfold annotateMatcherOptionsTypes getAllStringMatcherFields
  show (List.foldl (annStep m) {}
      ([.method, .url] ++ headerBlock m.headers ++ queryBlock m.query)).headers = _
  rw [List.foldl_append]
  rw [foldl_annStep_headers_of_ne m _ _ (fun f hf k => by
    obtain ⟨k', hk'⟩ := queryBlock_entries m.query f hf
    simp [hk'])]
  rw [hm]
  simp only [headerBlock]
  rw [List.append_nil]
  rw [foldl_annStep_headers_of_ne m _ _ (fun f hf k => by
    rcases List.mem_cons.mp hf with h | h
    · simp [h]
    · rcases List.mem_cons.mp h with h' | h'
      · simp [h']
      · simp at h')]

/-- The `query` component of an annotated matcher is absent when the
original query map is absent. -/
theorem annotate_query_component_none (m : RouteMatcherOptions)
    (hq : m.query = none) : (annotateMatcherOptionsTypes m).query = none := by
  unfold annotateMatcherOptionsTypes getAllStringMatcherFields
  show (List.foldl (annStep m) {}
      ([.method, .url] ++ headerBlock m.headers ++ queryBlock m.query)).query = _
  rw [List.foldl_append, hq]
  simp only [queryBlock]
  rw [List.foldl_nil, List.foldl_append]
  rw [foldl_annStep_query_of_ne m _ _ (fun f hf k => by
    obtain ⟨k', hk'⟩ := headerBlock_entries m.headers f hf
    simp [hk'])]
  rw [foldl_annStep_query_of_ne m _ _ (fun f hf k => by
    rcases List.mem_cons.mp hf with h | h
    · simp [h]
    · rcases List.mem_cons.mp h with h' | h'
      · simp [h']
      · simp at h')]

/-- Untagged fields pass through annotation verbatim. -/
theorem annotate_passthrough_components (m : RouteMatcherOptions) :
    (annotateMatcherOptionsTypes m).https = m.https ∧
    (annotateMatcherOptionsTypes m).port = m.port ∧
    (annotateMatcherOptionsTypes m).webSocket = m.webSocket := by
  unfold annotateMatcherOptionsTypes
  exact ⟨rfl, rfl, rfl⟩

/-- Characterization of successful matcher validation in terms of the
individual checks the source performs. -/
theorem validate_ok_iff (m : RouteMatcherOptions) :
    validateRouteMatcherOptions m = none ↔
      (isEmptyOptions m = false
        ∧ (∀ f ∈ getAllStringMatcherFields m, ∀ v,
            getField m f = some v → isStringMatcherV v = true)
        ∧ (∀ v, m.https = some v → isBooleanV v = true)
        ∧ (∀ v, m.port = some v → isNumberMatcherV v = true)) := by
  constructor
  · intro h
    unfold validateRouteMatcherOptions at h
    cases hem : isEmptyOptions m with
    | true => simp [hem] at h
    | false =>
      simp only [hem, Bool.false_eq_true, if_false] at h
      cases hfind : (getAllStringMatcherFields m).findSome? (fun path =>
          match getField m path with
          | some v => if isStringMatcherV v then none else some (fieldPath path)
          | none => none) with
      | some bad => simp [hfind] at h
      | none =>
        simp only [hfind] at h
        refine ⟨rfl, ?_, ?_, ?_⟩
        · intro f hf v hv
          have hstep := List.findSome?_eq_none_iff.mp hfind f hf
          simp only [hv] at hstep
          by_contra hns
          simp [Bool.eq_false_iff.mpr hns] at hstep
        · intro v hv
          simp only [hv] at h
          by_contra hb
          simp [Bool.eq_false_iff.mpr hb] at h
        · intro v hv
          have hport : validateRouteMatcherOptions.validatePort m = none := by
            cases hh : m.https with
            | none => simp only [hh] at h; exact h
            | some w =>
              simp only [hh] at h
              by_cases hbw : isBooleanV w = true
              · simp only [hbw, Bool.not_true, Bool.false_eq_true, if_false] at h
                exact h
              · simp [Bool.eq_false_iff.mpr hbw] at h
          unfold validateRouteMatcherOptions.validatePort at hport
          simp only [hv] at hport
          by_contra hn
          simp [Bool.eq_false_iff.mpr hn] at hport
  · rintro ⟨h1, h2, h3, h4⟩
    unfold validateRouteMatcherOptions
    simp only [h1, Bool.false_eq_true, if_false]
    have hfind : (getAllStringMatcherFields m).findSome? (fun path =>
        match getField m path with
        | some v => if isStringMatcherV v then none else some (fieldPath path)
        | none => none) = none := by
      refine List.findSome?_eq_none_iff.mpr (fun f hf => ?_)
      cases hv : getField m f with
      | none => rfl
      | some v => simp [h2 f hf v hv]
    simp only [hfind]
    have hport : validateRouteMatcherOptions.validatePort m = none := by
      unfold validateRouteMatcherOptions.validatePort
      cases hp : m.port with
      | none => rfl
      | some v => simp [h4 v hp]
    cases hh : m.https with
    | none => simp only [hh]; exact hport
    | some w =>
      simp only [hh, h3 w hh, Bool.not_true, Bool.false_eq_true, if_false]
      exact hport

/-- C9: a string/pattern-capable field that is present with the empty string
passes validation (the empty string is a string), but annotation omits the
field entirely because presence is tested by truthiness: shown concretely on
`\x7burl: ""\x7d`, and for every matcher whose `url` is the empty string. -/
theorem c9_empty_string_valid_but_omitted_by_annotation :
    validateRouteMatcherOptions justEmptyUrl = none
      ∧ (annotateMatcherOptionsTypes justEmptyUrl).url = none
      ∧ ∀ m : RouteMatcherOptions, m.url = some (.vStr "") →
          (annotateMatcherOptionsTypes m).url = none := by
  refine ⟨rfl, ?_, ?_⟩
  · rw [annotate_url_component]
    rfl
  · intro m hm
    rw [annotate_url_component, hm]
    rfl

/-- C9 witness: the universally quantified part applied to the concrete
matcher `\x7burl: ""\x7d`. -/
theorem c9_witness :
    (annotateMatcherOptionsTypes justEmptyUrl).url = none :=
  c9_empty_string_valid_but_omitted_by_annotation.2.2 justEmptyUrl rfl

/-- C10: an object-like handler with no keys is exempted from the JSON
wrapping branch by the empty-mapping check and is passed directly to
static-response validation as an empty StaticResponse. -/
theorem c10_empty_object_handler_not_wrapped :
    classifyHandler (some (.hobj [])) = .ok (some (.hobj []), some []) := rfl

theorem matcherOptions_ext {a b : RouteMatcherOptions}
    (h1 : a.method = b.method) (h2 : a.url = b.url) (h3 : a.headers = b.headers)
    (h4 : a.query = b.query) (h5 : a.https = b.https) (h6 : a.port = b.port)
    (h7 : a.webSocket = b.webSocket) : a = b := by
  cases a
  cases b
  simp_all

/-- Rehydration inverts annotation on a single kept value: a pattern or a
truthy string. -/
theorem rehydrate_annotateValue (v : JsVal)
    (hs : isStringMatcherV v = true) :
    rehydrateStringMatcher (annotateValue v) = v := by
  cases v <;> simp [isStringMatcherV, isRegExpV] at hs <;>
    simp [annotateValue, rehydrateStringMatcher, isRegExpV, jsToString]

/-- C5 (amended): annotation followed by rehydration reconstructs the
matcher exactly, for every valid matcher in which every present
string/pattern-capable value is truthy (annotation drops falsy values such
as the empty string) and every present `headers`/`query` map is nonempty
(annotation drops an empty present map) with pairwise-distinct keys that
are plain property names (a key containing a path separator is addressed
through a split lodash path and is dropped unless a sibling chain resolves
it). -/
theorem c5_annotate_rehydrate_roundtrip (m : RouteMatcherOptions)
    (hvalid : validateRouteMatcherOptions m = none)
    (hmu : ∀ v, m.method = some v → truthy v = true)
    (huu : ∀ v, m.url = some v → truthy v = true)
    (hhs : ∀ hs, m.headers = some hs →
      hs ≠ [] ∧ (hs.map Prod.fst).Nodup ∧ ∀ kv ∈ hs,
        truthy kv.2 = true ∧ plainSegment kv.1 = true)
    (hqs : ∀ qs, m.query = some qs →
      qs ≠ [] ∧ (qs.map Prod.fst).Nodup ∧ ∀ kv ∈ qs,
        truthy kv.2 = true ∧ plainSegment kv.1 = true) :
    rehydrateAnnotated (annotateMatcherOptionsTypes m) = m := by
  obtain ⟨hne, hfields, hhttps, hport⟩ := (validate_ok_iff m).mp hvalid
  have hpass := annotate_passthrough_components m
  refine matcherOptions_ext ?_ ?_ ?_ ?_ ?_ ?_ ?_
  · show (annotateMatcherOptionsTypes m).method.map rehydrateStringMatcher = m.method
    rw [annotate_method_component]
    cases hmm : m.method with
    | none => rfl
    | some v =>
      have hstr := hfields .method (by simp [getAllStringMatcherFields]) v hmm
      simp [hmu v hmm, rehydrate_annotateValue v hstr]
  · show (annotateMatcherOptionsTypes m).url.map rehydrateStringMatcher = m.url
    rw [annotate_url_component]
    cases hmm : m.url with
    | none => rfl
    | some v =>
      have hstr := hfields .url (by simp [getAllStringMatcherFields]) v hmm
      simp [huu v hmm, rehydrate_annotateValue v hstr]
  · show (annotateMatcherOptionsTypes m).headers.map
        (List.map (fun kv => (kv.1, rehydrateStringMatcher kv.2))) = m.headers
    cases hcase : m.headers with
    | none => rw [annotate_headers_component_none m hcase]; rfl
    | some hs =>
      obtain ⟨hne', hnd, htr⟩ := hhs hs hcase
      rw [annotate_headers_component m hs hcase hnd
        (fun kv hkv => (htr kv hkv).1) (fun kv hkv => (htr kv hkv).2)]
      rw [if_neg (by simpa using hne')]
      show some ((hs.map _).map _) = _
      rw [List.map_map]
      have : ∀ kv ∈ hs,
          ((fun kv : String × AnnotatedStringMatcher =>
              (kv.1, rehydrateStringMatcher kv.2)) ∘
            (fun kv : String × JsVal => (kv.1, annotateValue kv.2))) kv = kv := by
        intro kv hkv
        have hmem : StrField.headerEntry kv.1 ∈ getAllStringMatcherFields m := by
          simp only [getAllStringMatcherFields, hcase, headerBlock]
          exact List.mem_append.mpr (Or.inl (List.mem_append.mpr (Or.inr
            (List.mem_map.mpr ⟨kv, hkv, rfl⟩))))
        have hget : getField m (.headerEntry kv.1) = some kv.2 := by
          rw [getField_headerEntry_plain m hs kv.1 hcase (htr kv hkv).2]
          exact lookup_eq_of_nodup_mem hs kv.1 kv.2 hnd (by simpa using hkv)
        have hstr := hfields _ hmem kv.2 hget
        simp [Function.comp, rehydrate_annotateValue kv.2 hstr]
      rw [List.map_congr_left this]
      simp
  · show (annotateMatcherOptionsTypes m).query.map
        (List.map (fun kv => (kv.1, rehydrateStringMatcher kv.2))) = m.query
    cases hcase : m.query with
    | none => rw [annotate_query_component_none m hcase]; rfl
    | some qs =>
      obtain ⟨hne', hnd, htr⟩ := hqs qs hcase
      rw [annotate_query_component m qs hcase hnd
        (fun kv hkv => (htr kv hkv).1) (fun kv hkv => (htr kv hkv).2)]
      rw [if_neg (by simpa using hne')]
      show some ((qs.map _).map _) = _
      rw [List.map_map]
      have : ∀ kv ∈ qs,
          ((fun kv : String × AnnotatedStringMatcher =>
              (kv.1, rehydrateStringMatcher kv.2)) ∘
            (fun kv : String × JsVal => (kv.1, annotateValue kv.2))) kv = kv := by
        intro kv hkv
        have hmem : StrField.queryEntry kv.1 ∈ getAllStringMatcherFields m := by
          simp only [getAllStringMatcherFields, hcase, queryBlock]
          exact List.mem_append.mpr (Or.inr (List.mem_map.mpr ⟨kv, hkv, rfl⟩))
        have hget : getField m (.queryEntry kv.1) = some kv.2 := by
          rw [getField_queryEntry_plain m qs kv.1 hcase (htr kv hkv).2]
          exact lookup_eq_of_nodup_mem qs kv.1 kv.2 hnd (by simpa using hkv)
        have hstr := hfields _ hmem kv.2 hget
        simp [Function.comp, rehydrate_annotateValue kv.2 hstr]
      rw [List.map_congr_left this]
      simp
  · exact hpass.1
  · exact hpass.2.1
  · exact hpass.2.2

/-- C5 counterexample: the matcher `\x7burl: ""\x7d` is valid, yet the
round trip drops its `url` field, so annotation is not lossless for every
valid matcher. -/
theorem c5_counterexample :
    validateRouteMatcherOptions justEmptyUrl = none
      ∧ justEmptyUrl.url = some (.vStr "")
      ∧ (rehydrateAnnotated (annotateMatcherOptionsTypes justEmptyUrl)).url = none
      ∧ rehydrateAnnotated (annotateMatcherOptionsTypes justEmptyUrl) ≠ justEmptyUrl := by
  refine ⟨rfl, rfl, rfl, fun hcontra => ?_⟩
  have := congrArg RouteMatcherOptions.url hcontra
  exact Option.noConfusion
    (show (none : Option JsVal) = some (.vStr "") from this)

/-- C5 witness: the amended round-trip law applied to a concrete valid
matcher with a truthy url, truthy header entry and a port. -/
theorem c5_witness :
    rehydrateAnnotated (annotateMatcherOptionsTypes
      { emptyMatcher with
          url := some (.vStr "foo")
          headers := some [("x-a", .vStr "b")]
          port := some (.vNum 80) }) =
      { emptyMatcher with
          url := some (.vStr "foo")
          headers := some [("x-a", .vStr "b")]
          port := some (.vNum 80) } :=
  c5_annotate_rehydrate_roundtrip _ rfl
    (fun v hv => by cases hv)
    (fun v hv => by cases hv; rfl)
    (fun hs hhs => by
      cases hhs
      exact ⟨by simp, by simp, fun kv hkv => by
        rcases List.mem_singleton.mp hkv with rfl
        exact ⟨rfl, by decide⟩⟩)
    (fun qs hqs => by cases hqs)

theorem stringOrPattern_iff (v : JsVal) :
    isStringOrPatternSpec v ↔ isStringMatcherV v = true := by
  cases v <;> simp [isStringOrPatternSpec, isStringMatcherV, isRegExpV]

theorem boolean_iff (v : JsVal) : isBooleanSpec v ↔ isBooleanV v = true := by
  cases v <;> simp [isBooleanSpec, isBooleanV]

theorem numberMatcher_iff (v : JsVal) :
    isNumberOrNumberListSpec v ↔ isNumberMatcherV v = true := by
  cases v with
  | vList xs =>
    simp only [isNumberOrNumberListSpec, isNumberMatcherV, List.all_eq_true]
    constructor
    · intro h x hx
      have := h x hx
      cases x <;> simp_all [isNumberSpec, isNumberV]
    · intro h x hx
      have := h x hx
      cases x <;> simp_all [isNumberSpec, isNumberV]
  | _ => simp [isNumberOrNumberListSpec, isNumberMatcherV, isNumberV, isNumberSpec]

theorem mem_of_lookup_eq_some {α : Type} :
    ∀ (l : List (String × α)) (k : String) (v : α),
      l.lookup k = some v → (k, v) ∈ l := by
  intro l
  induction l with
  | nil => intro k v h; cases h
  | cons kv rest ih =>
    intro k v h
    obtain ⟨k', v'⟩ := kv
    rw [List.lookup_cons] at h
    by_cases hk : k = k'
    · subst hk
      simp at h
      subst h
      exact List.mem_cons_self _ _
    · simp only [beq_eq_false_iff_ne.mpr hk] at h
      exact List.mem_cons_of_mem _ (ih k v h)

/-- C4 counterexample: for the matcher whose `query` map carries the dotted
key `"a.b"` with the number 5, a nested query entry is present with a value
that is neither a string nor a pattern, so the claim requires validation to
fail; but the source addresses the entry through the composed lodash path
`query.a.b`, the dot-split walk misses the dotted key, and validation
succeeds. -/
theorem c4_counterexample :
    validateRouteMatcherOptions { query := some [("a.b", .vNum 5)] } = none
      ∧ specMalformed { query := some [("a.b", .vNum 5)] } := by
  refine ⟨by decide, ?_⟩
  exact Or.inr (Or.inr (Or.inr (Or.inr (Or.inl
    ⟨[("a.b", .vNum 5)], rfl, ("a.b", .vNum 5), List.mem_singleton.mpr rfl, by decide⟩))))

/-- C4 (amended): matcher validation fails (with the MalformedMatcher
error) exactly under the conditions the claim lists — empty spec, a
non-string-non-pattern value in a string/pattern-capable field (including
nested header/query entries), a non-boolean `https`, or a `port` that is
neither a number nor a list of numbers — and succeeds otherwise, provided
every header/query key is a plain property name (pairwise distinct, as
JavaScript object keys are, and containing no path separator).  A key
containing a dot is addressed through a split lodash path, so its entry is
not itself checked and the equivalence does not extend to it. -/
theorem c4_validation_fails_iff_malformed (m : RouteMatcherOptions)
    (hndh : ∀ hs, m.headers = some hs →
      (hs.map Prod.fst).Nodup ∧ ∀ kv ∈ hs, plainSegment kv.1 = true)
    (hndq : ∀ qs, m.query = some qs →
      (qs.map Prod.fst).Nodup ∧ ∀ kv ∈ qs, plainSegment kv.1 = true) :
    validateRouteMatcherOptions m ≠ none ↔ specMalformed m := by
  rw [Ne, validate_ok_iff]
  constructor
  · intro h
    by_contra hspec
    apply h
    unfold specMalformed at hspec
    push_neg at hspec
    obtain ⟨hs1, hs2, hs3, hs4, hs5, hs6, hs7⟩ := hspec
    refine ⟨?_, ?_, ?_, ?_⟩
    · cases hb : isEmptyOptions m with
      | false => rfl
      | true => exact absurd hb hs1
    · intro f hf v hv
      cases f with
      | method =>
        have := hs2 v (by simpa [getField] using hv)
        exact (stringOrPattern_iff v).mp this
      | url =>
        have := hs3 v (by simpa [getField] using hv)
        exact (stringOrPattern_iff v).mp this
      | headerEntry k =>
        cases hh : m.headers with
        | none =>
          rw [show getField m (.headerEntry k) = none from by simp [getField, hh]] at hv
          cases hv
        | some hs =>
          have hkmem : ∃ kv ∈ hs, kv.1 = k := by
            simp only [getAllStringMatcherFields, List.mem_append] at hf
            rcases hf with (hf | hf) | hf
            · simp at hf
            · rw [hh] at hf
              simp only [headerBlock] at hf
              obtain ⟨kv, hkv, heq⟩ := List.mem_map.mp hf
              exact ⟨kv, hkv, StrField.headerEntry.inj heq⟩
            · obtain ⟨k', hk'⟩ := queryBlock_entries m.query _ hf
              exact StrField.noConfusion hk'
          obtain ⟨kv0, hkv0, hkeq⟩ := hkmem
          have hseg : plainSegment k = true := hkeq ▸ (hndh hs hh).2 kv0 hkv0
          rw [getField_headerEntry_plain m hs k hh hseg] at hv
          have hmem := mem_of_lookup_eq_some hs k v hv
          have := hs4 hs hh (k, v) hmem
          exact (stringOrPattern_iff v).mp this
      | queryEntry k =>
        cases hh : m.query with
        | none =>
          rw [show getField m (.queryEntry k) = none from by simp [getField, hh]] at hv
          cases hv
        | some qs =>
          have hkmem : ∃ kv ∈ qs, kv.1 = k := by
            simp only [getAllStringMatcherFields, List.mem_append] at hf
            rcases hf with (hf | hf) | hf
            · simp at hf
            · obtain ⟨k', hk'⟩ := headerBlock_entries m.headers _ hf
              exact StrField.noConfusion hk'
            · rw [hh] at hf
              simp only [queryBlock] at hf
              obtain ⟨kv, hkv, heq⟩ := List.mem_map.mp hf
              exact ⟨kv, hkv, StrField.queryEntry.inj heq⟩
          obtain ⟨kv0, hkv0, hkeq⟩ := hkmem
          have hseg : plainSegment k = true := hkeq ▸ (hndq qs hh).2 kv0 hkv0
          rw [getField_queryEntry_plain m qs k hh hseg] at hv
          have hmem := mem_of_lookup_eq_some qs k v hv
          have := hs5 qs hh (k, v) hmem
          exact (stringOrPattern_iff v).mp this
    · intro v hv
      have := hs6 v hv
      exact (boolean_iff v).mp this
    · intro v hv
      have := hs7 v hv
      exact (numberMatcher_iff v).mp this
  · rintro hspec ⟨h1, h2, h3, h4⟩
    unfold specMalformed at hspec
    rcases hspec with h | h | h | h | h | h | h
    · rw [h1] at h; cases h
    · obtain ⟨v, hv, hbad⟩ := h
      exact hbad ((stringOrPattern_iff v).mpr
        (h2 .method (by simp [getAllStringMatcherFields]) v (by simpa [getField] using hv)))
    · obtain ⟨v, hv, hbad⟩ := h
      exact hbad ((stringOrPattern_iff v).mpr
        (h2 .url (by simp [getAllStringMatcherFields]) v (by simpa [getField] using hv)))
    · obtain ⟨hs, hh, kv, hkv, hbad⟩ := h
      have hmem : StrField.headerEntry kv.1 ∈ getAllStringMatcherFields m := by
        simp only [getAllStringMatcherFields, hh, headerBlock]
        exact List.mem_append.mpr (Or.inl (List.mem_append.mpr (Or.inr
          (List.mem_map.mpr ⟨kv, hkv, rfl⟩))))
      have hget : getField m (.headerEntry kv.1) = some kv.2 := by
        rw [getField_headerEntry_plain m hs kv.1 hh ((hndh hs hh).2 kv hkv)]
        exact lookup_eq_of_nodup_mem hs kv.1 kv.2 (hndh hs hh).1 (by simpa using hkv)
      exact hbad ((stringOrPattern_iff kv.2).mpr (h2 _ hmem kv.2 hget))
    · obtain ⟨qs, hh, kv, hkv, hbad⟩ := h
      have hmem : StrField.queryEntry kv.1 ∈ getAllStringMatcherFields m := by
        simp only [getAllStringMatcherFields, hh, queryBlock]
        exact List.mem_append.mpr (Or.inr (List.mem_map.mpr ⟨kv, hkv, rfl⟩))
      have hget : getField m (.queryEntry kv.1) = some kv.2 := by
        rw [getField_queryEntry_plain m qs kv.1 hh ((hndq qs hh).2 kv hkv)]
        exact lookup_eq_of_nodup_mem qs kv.1 kv.2 (hndq qs hh).1 (by simpa using hkv)
      exact hbad ((stringOrPattern_iff kv.2).mpr (h2 _ hmem kv.2 hget))
    · obtain ⟨v, hv, hbad⟩ := h
      exact hbad ((boolean_iff v).mpr (h3 v hv))
    · obtain ⟨v, hv, hbad⟩ := h
      exact hbad ((numberMatcher_iff v).mpr (h4 v hv))

/-- C4 witness: the characterization applied to the concrete matcher
`\x7bport: "abc"\x7d`, which fails validation and is malformed per the
claim conditions, and to `\x7bport: [80, 443], url: "x"\x7d`, which
validates. -/
theorem c4_witness :
    specMalformed { port := some (.vStr "abc") }
      ∧ ¬ specMalformed { url := some (.vStr "x")
                          port := some (.vList [.vNum 80, .vNum 443]) } :=
  ⟨(c4_validation_fails_iff_malformed _ (fun _ h => Option.noConfusion h)
      (fun _ h => Option.noConfusion h)).mp (by decide),
   fun hspec =>
    ((c4_validation_fails_iff_malformed _ (fun _ h => Option.noConfusion h)
        (fun _ h => Option.noConfusion h)).mpr hspec) (by decide)⟩

/-- C1 counterexample: a two-string call `register("GET", "/foo")` (no third
argument) resolves to the bare-url shorthand `\x7burl: "GET"\x7d` — the
second string becomes the handler — not to
`\x7bmethod: "GET", url: "/foo"\x7d` as the claim states, because the
`(method, url)` form additionally requires a truthy third argument. -/
theorem c1_counterexample :
    (getMatcherOptions (.mstr "GET") (some (.hstr "/foo")) none).1.method = none
      ∧ (getMatcherOptions (.mstr "GET") (some (.hstr "/foo")) none).1.url
          = some (.vStr "GET")
      ∧ (getMatcherOptions (.mstr "GET") (some (.hstr "/foo")) none).2
          = some (.hstr "/foo")
      ∧ (getMatcherOptions (.mstr "GET") (some (.hstr "/foo")) none).1
          ≠ { emptyMatcher with method := some (.vStr "GET"), url := some (.vStr "/foo") } := by
  refine ⟨rfl, rfl, rfl, fun h => ?_⟩
  have := congrArg RouteMatcherOptions.method h
  exact Option.noConfusion (show (none : Option JsVal) = some (.vStr "GET") from this)

/-- C1 (amended): the registration entry point accepts the shorthand forms —
a bare string or pattern u becomes `\x7burl: u\x7d`; a string method plus a
StringMatcher url plus a truthy handler third argument becomes
`\x7bmethod, url\x7d` (without a truthy third argument two strings resolve
to the bare-url form instead); a full matcher object is used as the matcher
itself; and an omitted handler is classified as observe-only passthrough
(no static response). -/
theorem c1_shorthand_forms :
    (∀ u : String, getMatcherOptions (.mstr u) none none
        = ({ emptyMatcher with url := some (.vStr u) }, none))
      ∧ (∀ r : String, ∀ hnd a2 : Option RouteHandler,
          getMatcherOptions (.mregex r) hnd a2
            = ({ emptyMatcher with url := some (.vRegex r) }, hnd))
      ∧ (∀ m u : String, ∀ a : RouteHandler, truthyHandler a = true →
          getMatcherOptions (.mstr m) (some (.hstr u)) (some a)
            = ({ emptyMatcher with
                  method := some (.vStr m), url := some (.vStr u) }, some a))
      ∧ (∀ o : RouteMatcherOptions, ∀ hnd a2 : Option RouteHandler,
          getMatcherOptions (.moptions o) hnd a2 = (o, hnd))
      ∧ classifyHandler none = .ok (none, none) := by
  refine ⟨fun u => rfl, fun r hnd a2 => rfl, ?_, fun o hnd a2 => rfl, rfl⟩
  intro m u a ha
  simp [getMatcherOptions, asStringMatcherArg, ha]

/-- C1 witness: the `(method, url, handler)` form at concrete arguments. -/
theorem c1_witness :
    getMatcherOptions (.mstr "GET") (some (.hstr "/users")) (some (.interceptor 0))
      = ({ emptyMatcher with
            method := some (.vStr "GET"), url := some (.vStr "/users") },
          some (.interceptor 0)) :=
  c1_shorthand_forms.2.2.1 "GET" "/users" (.interceptor 0) rfl

/-- Handler classification can only fail with InvalidHandler or an invalid
static response. -/
theorem classifyHandler_error_cases (h : Option RouteHandler) (e : RegError)
    (heq : classifyHandler h = .error e) :
    e = .invalidHandler ∨ ∃ msg, e = .invalidStaticResponse msg := by
  cases h with
  | none => cases heq
  | some hh =>
    cases hh with
    | interceptor i => cases heq
    | hstr s => cases heq
    | hobj fs =>
      simp only [classifyHandler] at heq
      split at heq
      · exact Or.inr ⟨_, (Except.error.inj heq).symm⟩
      · cases heq
    | hregex r =>
      simp only [classifyHandler] at heq
      split at heq
      · exact Or.inr ⟨_, (Except.error.inj heq).symm⟩
      · cases heq
    | hnum n => exact Or.inl (Except.error.inj heq).symm
    | hbool b => exact Or.inl (Except.error.inj heq).symm
    | hnull => exact Or.inl (Except.error.inj heq).symm

/-- C2 counterexample: with a valid matcher and an invalid handler (the
number 5), registration fails with InvalidHandler, yet the unique-id counter
has been advanced — the handler identifier is generated before handler
classification, so classification does not complete before every
registration side effect. -/
theorem c2_counterexample :
    (route2 true 0 none (.moptions urlFoo) (some (.hnum 5)) none st0).1
        = .error .invalidHandler
      ∧ (route2 true 0 none (.moptions urlFoo) (some (.hnum 5)) none st0).2.uniqueIdCounter
          = st0.uniqueIdCounter + 1 := ⟨rfl, rfl⟩

/-- C2 (amended): matcher validation completes before every registration
side effect — a validation failure leaves the state untouched — but the
handler identifier is generated (the unique-id counter advanced) before
handler classification, so a classification failure still advances the
counter by one while leaving the registry and the emitted frames
unchanged. -/
theorem c2_validation_before_effects (exp : Bool) (t : Nat) (al : Option String)
    (marg : RouteMatcherArg) (hnd a2 : Option RouteHandler) (st : DriverState) :
    (∀ e, (route2 exp t al marg hnd a2 st).1 = .error (.invalidRouteMatcher e) →
        (route2 exp t al marg hnd a2 st).2 = st)
      ∧ (((route2 exp t al marg hnd a2 st).1 = .error .invalidHandler
            ∨ (∃ e, (route2 exp t al marg hnd a2 st).1
                = .error (.invalidStaticResponse e))) →
          (route2 exp t al marg hnd a2 st).2.routes = st.routes
            ∧ (route2 exp t al marg hnd a2 st).2.emitted = st.emitted
            ∧ (route2 exp t al marg hnd a2 st).2.uniqueIdCounter
                = st.uniqueIdCounter + 1) := by
  cases exp with
  | false =>
    constructor
    · intro e he
      simp [route2] at he
    · intro hh
      rcases hh with hh | ⟨e, hh⟩ <;> simp [route2] at hh
  | true =>
    cases hv : validateRouteMatcherOptions (getMatcherOptions marg hnd a2).1 with
    | some err =>
      constructor
      · intro e he
        simp [route2, hv]
      · intro hh
        rcases hh with hh | ⟨e, hh⟩ <;> simp [route2, hv] at hh
    | none =>
      cases hc : classifyHandler (getMatcherOptions marg hnd a2).2 with
      | error e =>
        rcases classifyHandler_error_cases _ e hc with he | ⟨msg, he⟩
        · constructor
          · intro e' he'
            simp only [route2, hv, addRoute, hc] at he'
            rw [he] at he'
            simp at he'
          · intro _
            simp [route2, hv, addRoute, hc]
        · constructor
          · intro e' he'
            simp only [route2, hv, addRoute, hc] at he'
            rw [he] at he'
            simp at he'
          · intro _
            simp [route2, hv, addRoute, hc]
      | ok pair =>
        constructor
        · intro e' he'
          simp [route2, hv, addRoute, hc] at he'
        · intro hh
          rcases hh with hh | ⟨e, hh⟩ <;> simp [route2, hv, addRoute, hc] at hh

/-- C2 witness: the amended statement applied at a concrete failing
validation (state untouched) and at a concrete failing classification
(counter advanced, registry and frames untouched). -/
theorem c2_witness :
    (route2 true 0 none (.moptions emptyMatcher) none none st0).2 = st0
      ∧ (route2 true 0 none (.moptions urlFoo) (some (.hbool false)) none st0).2.routes
          = st0.routes := by
  constructor
  · exact (c2_validation_before_effects true 0 none (.moptions emptyMatcher)
      none none st0).1 _ rfl
  · exact ((c2_validation_before_effects true 0 none (.moptions urlFoo)
      (some (.hbool false)) none st0).2 (Or.inl rfl)).1

/-- C3: registration is atomic on structural failure — whenever the entry
point fails with a malformed matcher, an invalid handler, or an invalid
static response, the route registry and the list of emitted route-added
frames are left exactly as they were. -/
theorem c3_structural_failure_atomic (exp : Bool) (t : Nat) (al : Option String)
    (marg : RouteMatcherArg) (hnd a2 : Option RouteHandler) (st : DriverState)
    (hfail : structuralFailure (route2 exp t al marg hnd a2 st).1) :
    (route2 exp t al marg hnd a2 st).2.routes = st.routes
      ∧ (route2 exp t al marg hnd a2 st).2.emitted = st.emitted := by
  cases exp with
  | false => exact ⟨rfl, rfl⟩
  | true =>
    cases hv : validateRouteMatcherOptions (getMatcherOptions marg hnd a2).1 with
    | some err => simp [route2, hv]
    | none =>
      cases hc : classifyHandler (getMatcherOptions marg hnd a2).2 with
      | error e => simp [route2, hv, addRoute, hc]
      | ok pair =>
        exfalso
        have : structuralFailure (route2 true t al marg hnd a2 st).1 := hfail
        simp only [route2, hv, addRoute, hc] at this
        exact this

/-- C3 witness: atomicity at a concrete malformed-matcher failure. -/
theorem c3_witness :
    (route2 true 0 none (.moptions emptyMatcher) none none st0).2.routes = st0.routes
      ∧ (route2 true 0 none (.moptions emptyMatcher) none none st0).2.emitted
          = st0.emitted :=
  c3_structural_failure_atomic true 0 none (.moptions emptyMatcher) none none st0 trivial

/-- C6: a non-empty mapping handler sharing no keys with the recognized
static-response field set is wrapped: the classification succeeds and yields
a static response whose body is the JSON encoding of the entire mapping and
whose normalized headers contain `content-type: application/json`; a mapping
that does share a recognized key is passed to static-response validation
unchanged, as a StaticResponse itself. -/
theorem c6_json_object_handler (fs : List (String × JsVal)) :
    (fs ≠ [] → (∀ k ∈ keysOf fs, k ∉ STATIC_RESPONSE_KEYS) →
      classifyHandler (some (.hobj fs))
          = .ok (some (.hobj (wrapJsonObject fs)), some (wrapJsonObject fs))
        ∧ (getBackendStaticResponse (wrapJsonObject fs)).body
            = jsonStringifyVal (.vObj fs)
        ∧ ("content-type", "application/json")
            ∈ (getBackendStaticResponse (wrapJsonObject fs)).headers)
      ∧ ((∃ k ∈ keysOf fs, k ∈ STATIC_RESPONSE_KEYS) →
          classifyHandler (some (.hobj fs))
            = (match validateStaticResponse fs with
               | some err => Except.error (.invalidStaticResponse err)
               | none => Except.ok (some (.hobj fs), some fs))) := by
  constructor
  · intro hne hdisj
    have hne' : fs.isEmpty = false := by
      cases fs with
      | nil => exact absurd rfl hne
      | cons kv rest => rfl
    have hcond : (((keysOf fs).filter (fun k => k ∈ STATIC_RESPONSE_KEYS)).isEmpty
        && !fs.isEmpty) = true := by
      rw [hne']
      have : (keysOf fs).filter (fun k => k ∈ STATIC_RESPONSE_KEYS) = [] := by
        rw [List.filter_eq_nil_iff]
        intro k hk
        simp [hdisj k hk]
      rw [this]
      rfl
    refine ⟨?_, rfl, ?_⟩
    · simp only [classifyHandler, hcond, if_true]
      rfl
    · show ("content-type", "application/json")
        ∈ [("content-type", jsToString (.vStr "application/json"))]
      exact List.mem_singleton.mpr rfl
  · rintro ⟨k, hk, hkin⟩
    have hcond : (((keysOf fs).filter (fun k => k ∈ STATIC_RESPONSE_KEYS)).isEmpty
        && !fs.isEmpty) = false := by
      have hmem : k ∈ (keysOf fs).filter (fun k => k ∈ STATIC_RESPONSE_KEYS) :=
        List.mem_filter.mpr ⟨hk, by simp [hkin]⟩
      have : ((keysOf fs).filter (fun k => k ∈ STATIC_RESPONSE_KEYS)).isEmpty = false := by
        cases hfe : (keysOf fs).filter (fun k => k ∈ STATIC_RESPONSE_KEYS) with
        | nil => rw [hfe] at hmem; exact absurd hmem (List.not_mem_nil k)
        | cons a l => rfl
      rw [this]
      rfl
    simp only [classifyHandler, hcond, Bool.false_eq_true, if_false]

/-- C6 witness: the wrap branch at the concrete handler
`\x7bid: 1, name: "foo"\x7d`. -/
theorem c6_witness :
    classifyHandler (some (.hobj [("id", .vNum 1), ("name", .vStr "foo")]))
        = .ok (some (.hobj (wrapJsonObject [("id", .vNum 1), ("name", .vStr "foo")])),
            some (wrapJsonObject [("id", .vNum 1), ("name", .vStr "foo")]))
      ∧ (getBackendStaticResponse
            (wrapJsonObject [("id", .vNum 1), ("name", .vStr "foo")])).body
          = jsonStringifyVal (.vObj [("id", .vNum 1), ("name", .vStr "foo")])
      ∧ ("content-type", "application/json")
          ∈ (getBackendStaticResponse
              (wrapJsonObject [("id", .vNum 1), ("name", .vStr "foo")])).headers :=
  (c6_json_object_handler [("id", .vNum 1), ("name", .vStr "foo")]).1
    (by simp) (by decide)

/-- C7: a string handler registers as a static response whose body is the
string itself and whose normalized status code is the default 200: for every
string s and valid matcher, registration succeeds and the emitted frame
carries exactly that backend static response. -/
theorem c7_string_handler_default_status (s : String) (t : Nat) (al : Option String)
    (m : RouteMatcherOptions) (st : DriverState)
    (hvalid : validateRouteMatcherOptions m = none) :
    (route2 true t al (.moptions m) (some (.hstr s)) none st).1
        = .ok (getUniqueId t st.uniqueIdCounter)
      ∧ (route2 true t al (.moptions m) (some (.hstr s)) none st).2.emitted
          = st.emitted
            ++ [{ handlerId := getUniqueId t st.uniqueIdCounter,
                  routeMatcher := annotateMatcherOptionsTypes m,
                  staticResponse := some ⟨s, 200, [], false⟩ }] := by
  have h1 : validateRouteMatcherOptions
      (getMatcherOptions (.moptions m) (some (.hstr s)) none).1 = none := hvalid
  refine ⟨?_, ?_⟩ <;> (simp only [route2, h1]; rfl)

/-- C7 witness: the string handler "hello" on the concrete matcher
`\x7burl: "foo"\x7d` from the empty initial state. -/
theorem c7_witness :
    (route2 true 0 none (.moptions urlFoo) (some (.hstr "hello")) none st0).1
        = .ok (getUniqueId 0 st0.uniqueIdCounter)
      ∧ (route2 true 0 none (.moptions urlFoo) (some (.hstr "hello")) none st0).2.emitted
          = st0.emitted
            ++ [{ handlerId := getUniqueId 0 st0.uniqueIdCounter,
                  routeMatcher := annotateMatcherOptionsTypes urlFoo,
                  staticResponse := some ⟨"hello", 200, [], false⟩ }] :=
  c7_string_handler_default_status "hello" 0 none urlFoo st0 rfl

theorem charOfNat_digit_toNat (d : Nat) (h : d < 10) :
    (Char.ofNat (48 + d)).toNat = 48 + d := by
  interval_cases d <;> decide

theorem natDigits_range (n : Nat) :
    ∀ c ∈ natDigits n, 48 ≤ c.toNat ∧ c.toNat ≤ 57 := by
  induction n using Nat.strong_induction_on with
  | _ n ih =>
    intro c hc
    rw [natDigits] at hc
    by_cases h : n < 10
    · rw [dif_pos h] at hc
      rcases List.mem_singleton.mp hc with rfl
      rw [charOfNat_digit_toNat n h]
      omega
    · rw [dif_neg h] at hc
      rcases List.mem_append.mp hc with hm | hm
      · exact ih (n / 10) (Nat.div_lt_self (by omega) (by omega)) c hm
      · rcases List.mem_singleton.mp hm with rfl
        rw [charOfNat_digit_toNat (n % 10) (Nat.mod_lt n (by omega))]
        have := Nat.mod_lt n (show 0 < 10 by omega)
        omega

theorem dash_not_mem_natDigits (n : Nat) : '-' ∉ natDigits n := by
  intro hmem
  have := natDigits_range n '-' hmem
  have hd : ('-').toNat = 45 := by decide
  omega

theorem digitsVal_natDigits (n : Nat) : digitsVal (natDigits n) = n := by
  induction n using Nat.strong_induction_on with
  | _ n ih =>
    rw [natDigits]
    by_cases h : n < 10
    · rw [dif_pos h]
      show (0 * 10 + ((Char.ofNat (48 + n)).toNat - 48)) = n
      rw [charOfNat_digit_toNat n h]
      omega
    · rw [dif_neg h]
      unfold digitsVal
      rw [List.foldl_append]
      have ihv := ih (n / 10) (Nat.div_lt_self (by omega) (by omega))
      unfold digitsVal at ihv
      rw [ihv]
      show (n / 10) * 10 + ((Char.ofNat (48 + n % 10)).toNat - 48) = n
      rw [charOfNat_digit_toNat (n % 10) (Nat.mod_lt n (by omega))]
      omega

theorem natDigits_injective {a b : Nat} (h : natDigits a = natDigits b) : a = b := by
  have := congrArg digitsVal h
  rwa [digitsVal_natDigits, digitsVal_natDigits] at this

theorem append_dash_inj :
    ∀ (a1 : List Char) (a2 : List Char) (r1 r2 : List Char),
      '-' ∉ a1 → '-' ∉ a2 → a1 ++ '-' :: r1 = a2 ++ '-' :: r2 →
      a1 = a2 ∧ r1 = r2 := by
  intro a1
  induction a1 with
  | nil =>
    intro a2 r1 r2 _ h2 heq
    cases a2 with
    | nil => simpa using heq
    | cons y ys =>
      simp only [List.nil_append, List.cons_append, List.cons.injEq] at heq
      exact absurd (heq.1.symm ▸ List.mem_cons_self '-' ys) (heq.1 ▸ h2)
  | cons x xs ih =>
    intro a2 r1 r2 h1 h2 heq
    cases a2 with
    | nil =>
      simp only [List.nil_append, List.cons_append, List.cons.injEq] at heq
      exact absurd (heq.1 ▸ List.mem_cons_self x xs) (heq.1 ▸ h1)
    | cons y ys =>
      simp only [List.cons_append, List.cons.injEq] at heq
      obtain ⟨hxy, hrest⟩ := heq
      have hmx : '-' ∉ xs := fun hm => h1 (List.mem_cons_of_mem _ hm)
      have hmy : '-' ∉ ys := fun hm => h2 (List.mem_cons_of_mem _ hm)
      obtain ⟨he1, he2⟩ := ih ys r1 r2 hmx hmy hrest
      exact ⟨by rw [hxy, he1], he2⟩

/-- Two unique ids generated at different counter values are distinct, for
any pair of timestamps: the counter suffix after the dash determines the
counter, and decimal digit strings contain no dash. -/
theorem getUniqueId_ne_of_counter_ne (t1 t2 c1 c2 : Nat) (hc : c1 ≠ c2) :
    getUniqueId t1 c1 ≠ getUniqueId t2 c2 := by
  intro h
  have hdata := congrArg String.data h
  rw [getUniqueId, getUniqueId, String.data_append, String.data_append,
    String.data_append, String.data_append] at hdata
  have hsplit := append_dash_inj (natDigits t1) (natDigits t2)
    (natDigits c1) (natDigits c2)
    (dash_not_mem_natDigits t1) (dash_not_mem_natDigits t2) (by simpa using hdata)
  exact hc (natDigits_injective hsplit.2)

theorem route2_counter_ge (exp : Bool) (t : Nat) (al : Option String)
    (marg : RouteMatcherArg) (hnd a2 : Option RouteHandler) (st : DriverState) :
    st.uniqueIdCounter ≤ (route2 exp t al marg hnd a2 st).2.uniqueIdCounter := by
  cases exp with
  | false => exact le_refl _
  | true =>
    cases hv : validateRouteMatcherOptions (getMatcherOptions marg hnd a2).1 with
    | some err => simp [route2, hv]
    | none =>
      cases hc : classifyHandler (getMatcherOptions marg hnd a2).2 with
      | error e => simp [route2, hv, addRoute, hc]
      | ok pair => simp [route2, hv, addRoute, hc]

theorem route2_ok_id (exp : Bool) (t : Nat) (al : Option String)
    (marg : RouteMatcherArg) (hnd a2 : Option RouteHandler) (st : DriverState)
    (id : String) (hr : (route2 exp t al marg hnd a2 st).1 = .ok id) :
    id = getUniqueId t st.uniqueIdCounter
      ∧ (route2 exp t al marg hnd a2 st).2.uniqueIdCounter
          = st.uniqueIdCounter + 1 := by
  cases exp with
  | false => simp [route2] at hr
  | true =>
    cases hv : validateRouteMatcherOptions (getMatcherOptions marg hnd a2).1 with
    | some err => simp [route2, hv] at hr
    | none =>
      cases hc : classifyHandler (getMatcherOptions marg hnd a2).2 with
      | error e => simp [route2, hv, addRoute, hc] at hr
      | ok pair =>
        simp only [route2, hv, addRoute, hc] at hr ⊢
        exact ⟨(Except.ok.inj hr).symm, rfl⟩

theorem runCalls_mem_id (cs : List RegCall) :
    ∀ (st : DriverState) (id : String), id ∈ (runCalls cs st).1 →
      ∃ t c, st.uniqueIdCounter ≤ c ∧ id = getUniqueId t c := by
  induction cs with
  | nil => intro st id h; exact absurd h (List.not_mem_nil id)
  | cons c cs ih =>
    intro st id h
    simp only [runCalls] at h
    cases hr : (route2 c.experimental c.time c.aliasArg c.matcher c.handler c.arg2 st).1 with
    | error e =>
      rw [hr] at h
      obtain ⟨t', c', hc', hid⟩ := ih _ id h
      exact ⟨t', c', le_trans (route2_counter_ge _ _ _ _ _ _ st) hc', hid⟩
    | ok i =>
      rw [hr] at h
      rcases List.mem_cons.mp h with hh | hh
      · obtain ⟨hid, _⟩ := route2_ok_id _ _ _ _ _ _ st i hr
        exact ⟨c.time, st.uniqueIdCounter, le_refl _, hh.trans hid⟩
      · obtain ⟨t', c', hc', hid⟩ := ih _ id hh
        exact ⟨t', c', le_trans (route2_counter_ge _ _ _ _ _ _ st) hc', hid⟩

/-- C8: across any sequence of registration calls in one process, the
handler ids of the successful registrations are pairwise distinct — each
successful registration consumes one value of the per-process sequence
counter, and the counter suffix keeps ids distinct even when timestamps
coincide. -/
theorem c8_handler_ids_pairwise_distinct (cs : List RegCall) (st : DriverState) :
    ((runCalls cs st).1).Pairwise (fun a b => a ≠ b) := by
  induction cs generalizing st with
  | nil => exact List.Pairwise.nil
  | cons c cs ih =>
    simp only [runCalls]
    cases hr : (route2 c.experimental c.time c.aliasArg c.matcher c.handler c.arg2 st).1 with
    | error e => exact ih _
    | ok i =>
      refine List.Pairwise.cons ?_ (ih _)
      intro b hb
      obtain ⟨hid, hcount⟩ := route2_ok_id _ _ _ _ _ _ st i hr
      obtain ⟨t', c', hc', hbid⟩ := runCalls_mem_id cs _ b hb
      rw [hcount] at hc'
      rw [hid, hbid]
      exact getUniqueId_ne_of_counter_ne c.time t' st.uniqueIdCounter c' (by omega)

end NetStubbing
